import Mathlib

/-!
# Core mechanisms of a URL-shortening service, formalised

Shallow embedding of the concurrency- and consistency-sensitive core of a
Go URL-shortening service: the distributed token-bucket rate limiter
(`internal/cachestore/cache.go`), the URL cache with TTL semantics
(`internal/cachestore/cache.go`), the collision-retrying identifier
allocator and the persistent store (`internal/datastore/store.go` with the
SQL text of `insertURL`/`getURL`), and the request-handling layer
(`internal/rpcserver/urlshortener_service.go`).

External collaborators (redis, postgres, Go's `net/url` and `net` standard
library) are modelled by their observable behaviour: redis keys as an
association list with expiry timestamps, the `urls` table as an association
list keyed by `short_code`, and `url.Parse` / `net.SplitHostPort` /
`net.ParseIP` as oracle parameters whose outputs the embedded control flow
inspects exactly as the Go code does.
-/

/- ### Distributed rate limiter: `internal/cachestore/cache.go` -/

/-- The per-key token-bucket state stored in redis by the Lua script:
hash fields `tokens` and `last_refill`. -/
structure TokenBucket where
  tokens : Int
  lastRefill : Int
deriving DecidableEq

/-- `RateLimiterConfig` from cache.go (the redis key construction is not
modelled; no claim concerns it). `refillPeriod` is in whole seconds, as
passed to the script via `int(rl.config.RefillPeriod.Seconds())`. -/
structure RateLimiterConfig where
  capacity : Int
  refillRate : Int
  refillPeriod : Int
deriving DecidableEq

/-- One atomic execution of the Lua `script` of cache.go (lines 128-160):
read the bucket (absent means `tokens = capacity`, `last_refill = now`),
refill by whole elapsed periods, attempt to consume one token, store the
new state.  Lua's `math.floor(elapsed / refill_period)` is floored
division, `Int.fdiv`.  Returns the `allowed` flag and the bucket state
written back by `HMSET`. -/
def scriptStep (cfg : RateLimiterConfig) (now : Int) (bucket : Option TokenBucket) :
    Bool × TokenBucket :=
  let tokens := match bucket with | some b => b.tokens | none => cfg.capacity
  let last_refill := match bucket with | some b => b.lastRefill | none => now
  let elapsed := now - last_refill
  let periods := Int.fdiv elapsed cfg.refillPeriod
  let tokens := if 0 < periods then min cfg.capacity (tokens + periods * cfg.refillRate) else tokens
  let last_refill := if 0 < periods then last_refill + periods * cfg.refillPeriod else last_refill
  let allowed : Bool := decide (0 < tokens)
  let tokens := if allowed then tokens - 1 else tokens
  (allowed, ⟨tokens, last_refill⟩)

/-- The check-and-consume step exactly as the specification words it for a
present bucket: `periods = floor((now - lastRefill) / refillPeriod)` as the
floor of the exact rational quotient; if `periods > 0` then
`tokens = min(capacity, tokens + periods * refillRate)` and `lastRefill`
advances by exactly `periods * refillPeriod`; the call is admitted iff the
refilled token count is positive, consuming one token on admission and
leaving the count untouched on rejection. -/
def checkAndConsumeSpec (cfg : RateLimiterConfig) (now : Int) (b : TokenBucket) :
    Bool × TokenBucket :=
  let periods : Int := ⌊((now - b.lastRefill : Int) : ℚ) / ((cfg.refillPeriod : Int) : ℚ)⌋
  let refilled :=
    if 0 < periods then min cfg.capacity (b.tokens + periods * cfg.refillRate) else b.tokens
  let newLast :=
    if 0 < periods then b.lastRefill + periods * cfg.refillPeriod else b.lastRefill
  if 0 < refilled then (true, ⟨refilled - 1, newLast⟩) else (false, ⟨refilled, newLast⟩)

/-- The two sentinel errors of the rate limiter
(`ErrRateLimiterInternal`, `ErrRateLimiterExceeded`). -/
inductive RLError where
  | internal
  | exceeded
deriving DecidableEq

/-- `RateLimiter.Allow` (cache.go lines 191-208), parametrised by the
outcome of the redis `Eval` call: on eval failure it returns
`(false, ErrRateLimiterInternal)`; on success it returns whether the
script's integer reply equals 1, with no error. -/
def Allow (evalResult : Except Unit Int) : Bool × Option RLError :=
  match evalResult with
  | .error _ => (false, some .internal)
  | .ok v => (decide (v = 1), none)

/-- gRPC status codes used by the service layer. -/
inductive GrpcCode where
  | okCode
  | invalidArgument
  | notFound
  | internal
  | deadlineExceeded
  | resourceExhausted
deriving DecidableEq

/-- Outcome of the unary interceptor: either the request is rejected with a
status before the handler runs, or the handler runs and its response is
returned. -/
inductive InterceptorOutcome (α : Type) where
  | rejected (code : GrpcCode) (msg : String)
  | handled (resp : α)
deriving DecidableEq

/-- `RateLimiter.UnaryServerInterceptor` (cache.go lines 211-225),
parametrised by the eval outcome feeding `Allow` and by the response the
handler would produce: an `Allow` error yields `codes.Internal`; a
non-allowed result yields `codes.ResourceExhausted`; otherwise the handler
runs. -/
def unaryServerInterceptor {α : Type} (evalResult : Except Unit Int) (handlerResp : α) :
    InterceptorOutcome α :=
  match Allow evalResult with
  | (_, some _) => .rejected .internal "internal error"
  | (allowed, none) =>
    if allowed then .handled handlerResp
    else .rejected .resourceExhausted "rate limit exceeded"

/- ### URL cache: `internal/cachestore/cache.go` -/

/-- `urlTTL = time.Hour`, in seconds. -/
def urlTTL : Int := 3600

/-- A redis string entry: its value and its absolute expiry time. -/
structure CacheEntry where
  value : String
  expiresAt : Int
deriving DecidableEq

/-- The redis keyspace for URL entries, as an association list. -/
abbrev RedisKV := List (String × CacheEntry)

def kvLookup (kv : RedisKV) (k : String) : Option CacheEntry :=
  match kv with
  | [] => none
  | (k', e) :: rest => if k' = k then some e else kvLookup rest k

def kvSet (kv : RedisKV) (k : String) (e : CacheEntry) : RedisKV :=
  match kv with
  | [] => [(k, e)]
  | (k', e') :: rest => if k' = k then (k, e) :: rest else (k', e') :: kvSet rest k e

/-- `toInternalKey` (cache.go line 101): `fmt.Sprintf` of the `url` label,
a colon, and the key. -/
def toInternalKey (s : String) : String := "url:" ++ s

/-- Cache-layer errors as the read path distinguishes them: `redis.Nil`
(key absent) versus any other error (network, timeout, ...). -/
inductive CacheError where
  | nil
  | connErr
deriving DecidableEq

/-- Redis `GET` at time `now`: an expired key behaves exactly like an
absent key and yields `redis.Nil`. -/
def redisGet (kv : RedisKV) (now : Int) (k : String) : Except CacheError String :=
  match kvLookup kv k with
  | some e => if now < e.expiresAt then .ok e.value else .error .nil
  | none => .error .nil

/-- `Cache.GetURL` (cache.go lines 84-94): a plain redis `GET` on the
internal key.  The returned keyspace is the state after the call; `GET`
issues no write, so it is the input keyspace unchanged. -/
def cacheGetURL (kv : RedisKV) (now : Int) (key : String) :
    Except CacheError String × RedisKV :=
  (redisGet kv now (toInternalKey key), kv)

/-- `Cache.SetURL` (cache.go lines 97-99): redis `SET` with expiry
`urlTTL` from the time of the write. -/
def cacheSetURL (kv : RedisKV) (now : Int) (key value : String) : RedisKV :=
  kvSet kv (toInternalKey key) ⟨value, now + urlTTL⟩

/- ### Persistent store: `internal/datastore/store.go` and the SQL text -/

/-- `core.URL` (core.go): created-at timestamp, short code, long URL. -/
structure URL where
  createdAt : Int
  shortCode : String
  longURL : String
deriving DecidableEq

/-- The `urls` table: `short_code` (primary key) to `long_url`. -/
abbrev UrlsTable := List (String × String)

def dbLookup (db : UrlsTable) (code : String) : Option String :=
  match db with
  | [] => none
  | (c, u) :: rest => if c = code then some u else dbLookup rest code

/-- The `insertURL` statement:
`INSERT INTO urls (short_code, long_url) VALUES (...) ON CONFLICT
(short_code) DO NOTHING RETURNING *`.  If the short code is already
present nothing is inserted and no row is returned (the collision signal);
otherwise the row is inserted and returned. -/
def insertURL (db : UrlsTable) (now : Int) (shortCode longURL : String) :
    Option URL × UrlsTable :=
  match dbLookup db shortCode with
  | some _ => (none, db)
  | none => (some ⟨now, shortCode, longURL⟩, (shortCode, longURL) :: db)

/-- The error cases `Store.GetURL` distinguishes: `ErrURLNotFound`
(query succeeded, zero rows) versus a genuine database failure. -/
inductive GetURLError where
  | urlNotFound
  | dbErr
deriving DecidableEq

/-- `Store.GetURL` (store.go lines 165-194) over a reachable database:
the `getURL` query `SELECT long_url FROM urls WHERE short_code = $1`
followed by `CollectExactlyOneRow`; zero rows is `ErrURLNotFound`, not a
database error. -/
def storeGetURL (db : UrlsTable) (shortCode : String) : Except GetURLError String :=
  match dbLookup db shortCode with
  | some u => .ok u
  | none => .error .urlNotFound

/-- `maxRetries` (store.go line 26). -/
def maxRetries : Nat := 5

/-- The error cases of `Store.AddURL`: `GenerateShortCode` failure,
`db.Query` failure, a non-`ErrNoRows` `CollectExactlyOneRow` failure, and
`ErrFailedToAddURL` after all retries collide. -/
inductive AddURLError where
  | randErr
  | queryErr
  | collectErr
  | failedToAddURL
deriving DecidableEq

/-- The retry loop of `Store.AddURL` (store.go lines 123-162) over a
reachable database, so that each attempt's insert outcome is determined by
the table: attempt `i` draws `draws i` from the random source
(`GenerateShortCode`), propagates a randomness failure immediately, and
otherwise runs `insertURL`; a returned row is success, zero rows is a
collision and the loop retries with the next draw.  `r` is the number of
remaining attempts. -/
def addURLLoop (draws : Nat → Except Unit String) (now : Int) (longURL : String) :
    UrlsTable → Nat → Nat → Except AddURLError (URL × UrlsTable)
  | _, _, 0 => .error .failedToAddURL
  | db, i, r + 1 =>
    match draws i with
    | .error _ => .error .randErr
    | .ok code =>
      match insertURL db now code longURL with
      | (some u, db') => .ok (u, db')
      | (none, db') => addURLLoop draws now longURL db' (i + 1) r

/-- `Store.AddURL` over a reachable database: the retry loop started with
`maxRetries` attempts. -/
def addURL (draws : Nat → Except Unit String) (now : Int) (db : UrlsTable)
    (longURL : String) : Except AddURLError (URL × UrlsTable) :=
  addURLLoop draws now longURL db 0 maxRetries

/-- The store's possible responses to one insert attempt, as `AddURL`
distinguishes them: `db.Query` fails; `CollectExactlyOneRow` returns the
inserted row; it returns `pgx.ErrNoRows` (collision); or it fails with any
other error. -/
inductive InsertOutcome where
  | queryErr
  | row (u : URL)
  | noRows
  | collectErr
deriving DecidableEq

/-- Observable trace of one `AddURL` call: its result, the number of loop
iterations entered, and the short codes submitted to the store in order. -/
structure AddAttemptTrace where
  result : Except AddURLError URL
  attempts : Nat
  submitted : List String

/-- The code carried by a successful draw (`""` for a failed draw, which
never reaches the store). -/
def drawValue : Except Unit String → String
  | .ok c => c
  | .error _ => ""

/-- The retry loop of `Store.AddURL` with the store's per-attempt
responses injected as an oracle, recording the attempt count and the
submitted codes: a randomness failure, a `db.Query` failure and a
non-collision collect failure all abort the loop at that attempt; only a
collision (`pgx.ErrNoRows`) continues with a freshly drawn code. -/
def addURLGoLoop (draws : Nat → Except Unit String) (outcomes : Nat → InsertOutcome) :
    Nat → Nat → AddAttemptTrace
  | _, 0 => ⟨.error .failedToAddURL, 0, []⟩
  | i, r + 1 =>
    match draws i with
    | .error _ => ⟨.error .randErr, 1, []⟩
    | .ok code =>
      match outcomes i with
      | .queryErr => ⟨.error .queryErr, 1, [code]⟩
      | .row u => ⟨.ok u, 1, [code]⟩
      | .collectErr => ⟨.error .collectErr, 1, [code]⟩
      | .noRows =>
        let t := addURLGoLoop draws outcomes (i + 1) r
        ⟨t.result, t.attempts + 1, code :: t.submitted⟩

/-- `Store.AddURL` as a control-flow model over the draw and store-response
oracles. -/
def addURLGo (draws : Nat → Except Unit String) (outcomes : Nat → InsertOutcome) :
    AddAttemptTrace :=
  addURLGoLoop draws outcomes 0 maxRetries

/- ### Service layer: `internal/rpcserver/urlshortener_service.go` -/

/-- A gRPC status: code and message. -/
abbrev GrpcStatus := GrpcCode × String

/-- Outcome of the read path: the response (the original URL or an error
status) together with the background cache write it schedules, if any. -/
structure ReadOutcome where
  resp : Except GrpcStatus String
  cacheWrite : Option (String × String)

/-- `loadCache` (urlshortener_service.go lines 74-98), parametrised by the
store lookup's outcome: `ErrURLNotFound` maps to `codes.NotFound`, any
other store failure to `codes.Internal`; on success the URL is returned
and, when a cache is configured, a detached background `SetURL` for
exactly that key and value is scheduled. -/
def loadCache (dbRes : Except GetURLError String) (shortCode : String) (hasCache : Bool) :
    ReadOutcome :=
  match dbRes with
  | .error .urlNotFound => ⟨.error (.notFound, "url not found"), none⟩
  | .error .dbErr => ⟨.error (.internal, "internal error"), none⟩
  | .ok url =>
    if hasCache then ⟨.ok url, some (shortCode, url)⟩ else ⟨.ok url, none⟩

/-- `getCached` (urlshortener_service.go lines 61-72): with no cache
configured it reports `redis.Nil`; otherwise it reports the cache call's
outcome. -/
def getCached (hasCache : Bool) (cacheRes : Except CacheError String) :
    Except CacheError String :=
  if hasCache then cacheRes else .error .nil

/-- `GetOriginalURL` (urlshortener_service.go lines 46-59), parametrised by
the cache and store outcomes: an empty short code is `codes.InvalidArgument`;
a cache hit returns immediately with no cache write; `redis.Nil` and every
other cache error alike fall back to `loadCache`. -/
def getOriginalURL (shortCode : String) (hasCache : Bool)
    (cacheRes : Except CacheError String) (dbRes : Except GetURLError String) :
    ReadOutcome :=
  if shortCode = "" then ⟨.error (.invalidArgument, "missing short code"), none⟩
  else
    match getCached hasCache cacheRes with
    | .error _ => loadCache dbRes shortCode hasCache
    | .ok url => ⟨.ok url, none⟩

/-- The observable output of Go's `url.Parse` that `parseURL` inspects:
scheme, host, path, and the string `parsedURL.String()` serialises to. -/
structure GoURL where
  scheme : String
  host : String
  path : String
  serialized : String
deriving DecidableEq

/-- The classification of an IP address that `isLocalhost` reads off
`net.ParseIP`'s result: `IsLoopback()` and `IsPrivate()`. -/
structure IPProps where
  loopbackIP : Bool
  privateIP : Bool
deriving DecidableEq

/-- Whether `pat` occurs as a contiguous run inside `l`
(Go's `strings.Contains` on the underlying characters). -/
def hasInfix (pat : List Char) : List Char → Bool
  | [] => pat.isEmpty
  | a :: l => List.isPrefixOf pat (a :: l) || hasInfix pat l

/-- Go's `strings.Contains s pat`. -/
def strContains (s pat : String) : Bool := hasInfix pat.data s.data

/-- `isLocalhost` (urlshortener_service.go lines 152-174), with
`net.SplitHostPort` (`none` models its error) and `net.ParseIP` (`none`
models an unparsable IP) as oracles: literal `localhost`/`127.0.0.1`/`::1`
are local; otherwise the port is stripped when possible and the host is
local iff it parses as a loopback or private IP. -/
def isLocalhost (splitHostPort : String → Option (String × String))
    (parseIP : String → Option IPProps) (host : String) : Bool :=
  if host = "localhost" || host = "127.0.0.1" || host = "::1" then true
  else
    let hostWithoutPort :=
      match splitHostPort host with
      | some p => p.1
      | none => host
    match parseIP hostWithoutPort with
    | none => false
    | some ip => ip.loopbackIP || ip.privateIP

/-- Go's `strings.TrimSpace`: drop whitespace from both ends. -/
def trimSpace (s : String) : String :=
  ⟨((s.data.dropWhile Char.isWhitespace).reverse.dropWhile Char.isWhitespace).reverse⟩

/-- `core.MaxURLLength` (core.go). -/
def MaxURLLength : Nat := 2083

/-- `parseURL` (urlshortener_service.go lines 116-147): trim; reject empty
input; reject input longer than `MaxURLLength` bytes (Go's `len` on a
string counts bytes); parse (oracle); accept only `http`/`https` schemes;
reject paths containing `..` or `//`; reject local hosts; on success
return the parsed URL's serialised form. -/
def parseURL (parse : String → Option GoURL)
    (splitHostPort : String → Option (String × String))
    (parseIP : String → Option IPProps) (originalURL : String) : Except String String :=
  let originalURL := trimSpace originalURL
  if originalURL = "" then .error "missing original url"
  else if MaxURLLength < originalURL.utf8ByteSize then
    .error "url exceeds maximum length of 2083 characters"
  else
    match parse originalURL with
    | none => .error "invalid url format"
    | some u =>
      if u.scheme ≠ "http" ∧ u.scheme ≠ "https" then
        .error "only http and https schemes are accepted"
      else if strContains u.path ".." || strContains u.path "//" then
        .error "potentially unsafe url path"
      else if isLocalhost splitHostPort parseIP u.host then
        .error "localhost and internal addresses not allowed"
      else .ok u.serialized

/-- Outcome of `ShortenURL`: the response (short code or error status) and
the exact value handed to `AddURL` when the store is reached. -/
structure ShortenOutcome where
  resp : Except GrpcStatus String
  addURLArg : Option String

/-- `ShortenURL` (urlshortener_service.go lines 100-114), with the store
call's outcome per submitted value as a parameter: a `parseURL` failure is
`codes.InvalidArgument` and the store is never reached; `ErrFailedToAddURL`
maps to `codes.DeadlineExceeded`; any other store failure to
`codes.Internal`; success returns the short code. -/
def shortenURL (parse : String → Option GoURL)
    (splitHostPort : String → Option (String × String))
    (parseIP : String → Option IPProps) (originalUrl : String)
    (addResult : String → Except AddURLError URL) : ShortenOutcome :=
  match parseURL parse splitHostPort parseIP originalUrl with
  | .error e => ⟨.error (.invalidArgument, e), none⟩
  | .ok parsed =>
    match addResult parsed with
    | .error .failedToAddURL =>
      ⟨.error (.deadlineExceeded, "the request has timed out, please try again"), some parsed⟩
    | .error _ => ⟨.error (.internal, "internal error"), some parsed⟩
    | .ok u => ⟨.ok u.shortCode, some parsed⟩

/- ### Helper lemmas -/

/-- Floored integer division agrees with the floor of the exact rational
quotient for a positive divisor. -/
theorem floor_ratCast_div_eq_fdiv (n d : ℤ) (hd : 0 < d) :
    ⌊(n : ℚ) / (d : ℚ)⌋ = Int.fdiv n d := by
  rw [Int.fdiv_eq_ediv n hd.le]
  rw [← Int.toNat_of_nonneg hd.le]
  exact_mod_cast Rat.floor_intCast_div_natCast n d.toNat

/-- The refilled-then-consumed token count stays inside `[0, capacity]`. -/
theorem tokens_step_range (cap rate t0 periods : Int) (hcap : 0 ≤ cap)
    (hrate : 0 ≤ rate) (h0 : 0 ≤ t0) (h1 : t0 ≤ cap) :
    0 ≤ (let t1 := if 0 < periods then min cap (t0 + periods * rate) else t0
         if decide (0 < t1) then t1 - 1 else t1) ∧
      (let t1 := if 0 < periods then min cap (t0 + periods * rate) else t0
       if decide (0 < t1) then t1 - 1 else t1) ≤ cap := by
  by_cases hp : 0 < periods
  · simp only [hp, if_true]
    have hnn : 0 ≤ min cap (t0 + periods * rate) :=
      le_min hcap (by have := mul_nonneg hp.le hrate; linarith)
    have hle : min cap (t0 + periods * rate) ≤ cap := min_le_left _ _
    by_cases ht : 0 < min cap (t0 + periods * rate)
    · simp only [ht, decide_True, if_true]
      constructor <;> omega
    · simp only [ht, decide_False, if_false]
      exact ⟨hnn, hle⟩
  · simp only [hp, if_false]
    by_cases ht : 0 < t0
    · simp only [ht, decide_True, if_true]
      constructor <;> omega
    · simp only [ht, decide_False, if_false]
      exact ⟨h0, h1⟩

/- ### Claim theorems -/

/-- C1: for every bucket state `(tokens, lastRefill)` and call time `now`,
the rate limiter's atomic check-and-consume computes
`periods = floor((now - lastRefill) / refillPeriod)`; if `periods > 0` it
sets `tokens` to `min(capacity, tokens + periods * refillRate)` and
advances `lastRefill` by exactly `periods * refillPeriod` (not to `now`);
it admits the call iff the refilled token count is positive, decrementing
by one on admission and leaving the count undecremented on rejection:
the Lua script step coincides with that specification. -/
theorem scriptStep_eq_checkAndConsumeSpec (cfg : RateLimiterConfig) (now : Int)
    (b : TokenBucket) (hp : 0 < cfg.refillPeriod) :
    scriptStep cfg now (some b) = checkAndConsumeSpec cfg now b := by
  unfold scriptStep checkAndConsumeSpec
  rw [floor_ratCast_div_eq_fdiv _ _ hp]
  by_cases h2 : 0 < (if 0 < Int.fdiv (now - b.lastRefill) cfg.refillPeriod then
      min cfg.capacity (b.tokens + Int.fdiv (now - b.lastRefill) cfg.refillPeriod * cfg.refillRate)
    else b.tokens)
  · simp [h2]
  · simp [h2]

/-- Witness for C1 at a concrete configuration and state. -/
theorem scriptStep_eq_checkAndConsumeSpec_witness :
    (0 : Int) < 1 ∧
      scriptStep ⟨10, 40, 1⟩ 5 (some ⟨3, 2⟩) = checkAndConsumeSpec ⟨10, 40, 1⟩ 5 ⟨3, 2⟩ :=
  ⟨by decide, scriptStep_eq_checkAndConsumeSpec ⟨10, 40, 1⟩ 5 ⟨3, 2⟩ (by decide)⟩

/-- C7: the token-bucket invariant `tokens ∈ [0, capacity]` is preserved by
every execution of the check-and-consume step, starting from any in-range
state or from an absent bucket (which initialises `tokens = capacity`). -/
theorem scriptStep_preserves_token_range (cfg : RateLimiterConfig) (now : Int)
    (bucket : Option TokenBucket) (hcap : 0 ≤ cfg.capacity) (hrate : 0 ≤ cfg.refillRate)
    (hb : ∀ b, bucket = some b → 0 ≤ b.tokens ∧ b.tokens ≤ cfg.capacity) :
    0 ≤ ((scriptStep cfg now bucket).2).tokens ∧
      ((scriptStep cfg now bucket).2).tokens ≤ cfg.capacity := by
  cases bucket with
  | none =>
    have := tokens_step_range cfg.capacity cfg.refillRate cfg.capacity
      (Int.fdiv (now - now) cfg.refillPeriod) hcap hrate hcap le_rfl
    simpa [scriptStep] using this
  | some b =>
    obtain ⟨h0, h1⟩ := hb b rfl
    have := tokens_step_range cfg.capacity cfg.refillRate b.tokens
      (Int.fdiv (now - b.lastRefill) cfg.refillPeriod) hcap hrate h0 h1
    simpa [scriptStep] using this

/-- Witness for C7 at a concrete configuration and state. -/
theorem scriptStep_preserves_token_range_witness :
    ((0 : Int) ≤ 10 ∧ (0 : Int) ≤ 40 ∧
        (∀ b, some (⟨3, 2⟩ : TokenBucket) = some b → 0 ≤ b.tokens ∧ b.tokens ≤ 10)) ∧
      (0 ≤ ((scriptStep ⟨10, 40, 1⟩ 5 (some ⟨3, 2⟩)).2).tokens ∧
        ((scriptStep ⟨10, 40, 1⟩ 5 (some ⟨3, 2⟩)).2).tokens ≤ 10) :=
  ⟨⟨by decide, by decide, by intro b hb; cases hb; exact ⟨by decide, by decide⟩⟩,
    scriptStep_preserves_token_range ⟨10, 40, 1⟩ 5 (some ⟨3, 2⟩) (by decide) (by decide)
      (by intro b hb; cases hb; exact ⟨by decide, by decide⟩)⟩

/-- C6: whenever the redis eval underlying the limiter's atomic check
fails, `Allow` returns `(false, ErrRateLimiterInternal)` and the unary
interceptor rejects the request with `codes.Internal` without invoking the
handler (no `handled` outcome, whatever the handler would have
returned) — the limiter fails closed. -/
theorem allow_fails_closed (α : Type) (u : Unit) (resp : α) :
    Allow (.error u) = (false, some .internal) ∧
      unaryServerInterceptor (Except.error u) resp =
        InterceptorOutcome.rejected GrpcCode.internal "internal error" :=
  ⟨rfl, rfl⟩

/-- `kvSet` followed by `kvLookup` at the same key finds the written
entry. -/
theorem kvLookup_kvSet_self (kv : RedisKV) (k : String) (e : CacheEntry) :
    kvLookup (kvSet kv k e) k = some e := by
  induction kv with
  | nil => simp [kvSet, kvLookup]
  | cons p rest ih =>
    obtain ⟨k', e'⟩ := p
    by_cases h : k' = k
    · simp [kvSet, kvLookup, h]
    · simp [kvSet, kvLookup, h, ih]

/-- C3, counterexample: the claim that a cache hit resets the entry's TTL
as part of the read (so an entry re-read within each TTL window never
expires) is false on the code.  Write `abc123` at time 0 (expiry 3600);
the read at 1800 hits and leaves the keyspace unchanged; the read at 4000
— only 2200 seconds after the previous successful read, well inside its
claimed fresh TTL window — finds the entry expired and yields
`redis.Nil`. -/
theorem cacheGetURL_no_sliding_counterexample :
    (cacheGetURL (cacheSetURL [] 0 "abc123" "http://example.com") 1800 "abc123").1
        = .ok "http://example.com" ∧
      (cacheGetURL (cacheSetURL [] 0 "abc123" "http://example.com") 1800 "abc123").2
        = cacheSetURL [] 0 "abc123" "http://example.com" ∧
      (cacheGetURL
          ((cacheGetURL (cacheSetURL [] 0 "abc123" "http://example.com") 1800 "abc123").2)
          4000 "abc123").1 = .error .nil :=
  ⟨rfl, rfl, rfl⟩

/-- C3, amended: a cache hit does not touch the entry's TTL — `GetURL` is
a plain redis `GET` that leaves the keyspace unchanged, and a read hits
exactly when the entry is present and its write-time expiry
(`write time + urlTTL`, set by `SetURL`) has not passed: expiration is
fixed at write time, not sliding. -/
theorem cacheGetURL_fixed_expiration (kv : RedisKV) (now : Int) (key : String) :
    (cacheGetURL kv now key).2 = kv ∧
      (∀ v, (cacheGetURL kv now key).1 = .ok v ↔
        ∃ e, kvLookup kv (toInternalKey key) = some e ∧ e.value = v ∧ now < e.expiresAt) ∧
      (∀ w v, kvLookup (cacheSetURL kv w key v) (toInternalKey key)
        = some ⟨v, w + urlTTL⟩) := by
  refine ⟨rfl, ?_, ?_⟩
  · intro v
    simp only [cacheGetURL, redisGet]
    cases h : kvLookup kv (toInternalKey key) with
    | none => simp
    | some e =>
      by_cases hlt : now < e.expiresAt
      · simp only [hlt, if_true]
        constructor
        · intro hv
          injection hv with hv
          exact ⟨e, rfl, hv, hlt⟩
        · rintro ⟨e', he', hv, _⟩
          injection he' with he'
          rw [he', hv]
      · simp only [hlt, if_false]
        constructor
        · intro hv; cases hv
        · rintro ⟨e', he', hv, hlt'⟩
          injection he' with he'
          rw [← he'] at hlt'
          exact absurd hlt' hlt
  · intro w v
    exact kvLookup_kvSet_self kv (toInternalKey key) ⟨v, w + urlTTL⟩

/-- Closed instance of the amended C3 statement at a concrete keyspace. -/
theorem cacheGetURL_fixed_expiration_witness :
    (cacheGetURL [("url:k", ⟨"v", 10⟩)] 3 "k").2 = [("url:k", ⟨"v", 10⟩)] ∧
      (∀ v, (cacheGetURL [("url:k", ⟨"v", 10⟩)] 3 "k").1 = .ok v ↔
        ∃ e, kvLookup [("url:k", ⟨"v", 10⟩)] (toInternalKey "k") = some e ∧
          e.value = v ∧ 3 < e.expiresAt) ∧
      (∀ w v, kvLookup (cacheSetURL [("url:k", ⟨"v", 10⟩)] w "k" v) (toInternalKey "k")
        = some ⟨v, w + urlTTL⟩) :=
  cacheGetURL_fixed_expiration [("url:k", ⟨"v", 10⟩)] 3 "k"

/-- A successful pass through the `AddURL` retry loop leaves the inserted
pair readable: the returned short code resolves to the stored value. -/
theorem addURLLoop_roundtrip (draws : Nat → Except Unit String) (now : Int)
    (longURL : String) :
    ∀ (r i : Nat) (db : UrlsTable) (u : URL) (db' : UrlsTable),
      addURLLoop draws now longURL db i r = .ok (u, db') →
      storeGetURL db' u.shortCode = .ok longURL := by
  intro r
  induction r with
  | zero => intro i db u db' h; simp [addURLLoop] at h
  | succ r ih =>
    intro i db u db' h
    rw [addURLLoop] at h
    cases hd : draws i with
    | error e => rw [hd] at h; simp at h
    | ok code =>
      rw [hd] at h
      simp only at h
      unfold insertURL at h
      cases hins : dbLookup db code with
      | some v => rw [hins] at h; exact ih (i + 1) db u db' h
      | none =>
        rw [hins] at h
        simp only at h
        injection h with h
        injection h with hu hdb
        subst hu; subst hdb
        simp [storeGetURL, dbLookup]

/-- C2: for every value `v` accepted by the store, a successful
`AddURL(v)` returning short code `id`, followed by `GetURL(id)` against
the resulting store state, returns exactly `v`. -/
theorem addURL_getURL_roundtrip (draws : Nat → Except Unit String) (now : Int)
    (db : UrlsTable) (longURL : String) (u : URL) (db' : UrlsTable)
    (h : addURL draws now db longURL = .ok (u, db')) :
    storeGetURL db' u.shortCode = .ok longURL :=
  addURLLoop_roundtrip draws now longURL maxRetries 0 db u db' h

/-- Witness for C2: a concrete allocation on the empty table followed by
the lookup of the returned code. -/
theorem addURL_getURL_roundtrip_witness :
    addURL (fun _ => .ok "abc123") 0 [] "http://example.com"
        = .ok (⟨0, "abc123", "http://example.com"⟩, [("abc123", "http://example.com")]) ∧
      storeGetURL [("abc123", "http://example.com")] "abc123" = .ok "http://example.com" :=
  ⟨rfl, addURL_getURL_roundtrip (fun _ => .ok "abc123") 0 [] "http://example.com"
    ⟨0, "abc123", "http://example.com"⟩ [("abc123", "http://example.com")] rfl⟩

/-- C8: resolving an id absent from the store yields the distinct
`NotFound` outcome (`ErrURLNotFound` from the store, `codes.NotFound` from
the service), not an internal error, and schedules no cache write; in
general the background cache warm-up is scheduled only for the key and
value of a successful store lookup. -/
theorem resolve_absent_not_found (db : UrlsTable) (id : String) (hasCache : Bool)
    (h : dbLookup db id = none) :
    storeGetURL db id = .error .urlNotFound ∧
      loadCache (storeGetURL db id) id hasCache
        = ⟨.error (.notFound, "url not found"), none⟩ ∧
      (∀ (dbRes : Except GetURLError String) (sc : String) (c : Bool)
          (w : String × String),
        (loadCache dbRes sc c).cacheWrite = some w → dbRes = .ok w.2 ∧ w.1 = sc) := by
  have h1 : storeGetURL db id = .error .urlNotFound := by simp [storeGetURL, h]
  refine ⟨h1, by rw [h1]; rfl, ?_⟩
  intro dbRes sc c w hw
  match dbRes with
  | .error .urlNotFound => simp [loadCache] at hw
  | .error .dbErr => simp [loadCache] at hw
  | .ok url =>
    simp only [loadCache] at hw
    by_cases hc : c
    · rw [if_pos hc] at hw
      simp only at hw
      injection hw with hw
      rw [← hw]
      exact ⟨rfl, rfl⟩
    · rw [if_neg hc] at hw
      simp at hw

/-- Witness for C8 at the empty table. -/
theorem resolve_absent_not_found_witness :
    dbLookup [] "zzzzzz" = none ∧
      (storeGetURL [] "zzzzzz" = .error .urlNotFound ∧
        loadCache (storeGetURL [] "zzzzzz") "zzzzzz" true
          = ⟨.error (.notFound, "url not found"), none⟩ ∧
        (∀ (dbRes : Except GetURLError String) (sc : String) (c : Bool)
            (w : String × String),
          (loadCache dbRes sc c).cacheWrite = some w → dbRes = .ok w.2 ∧ w.1 = sc)) :=
  ⟨rfl, resolve_absent_not_found [] "zzzzzz" true rfl⟩

/-- C9: on the read path, every cache-layer error — `redis.Nil` or any
other failure — makes `GetOriginalURL` fall back to the store path, whose
outcome is exactly `loadCache` of the store lookup: a cache error by
itself never fails the request, and the result coincides with that of a
plain cache miss. -/
theorem cache_error_falls_back (sc : String) (hasCache : Bool) (e : CacheError)
    (dbRes : Except GetURLError String) (h : sc ≠ "") :
    getOriginalURL sc hasCache (.error e) dbRes = loadCache dbRes sc hasCache ∧
      getOriginalURL sc hasCache (.error e) dbRes
        = getOriginalURL sc hasCache (.error .nil) dbRes := by
  constructor <;>
    · simp only [getOriginalURL, getCached, if_neg h]
      by_cases hc : hasCache <;> simp [hc]

/-- Witness for C9 at a concrete short code, cache error and store
outcome. -/
theorem cache_error_falls_back_witness :
    "abc123" ≠ "" ∧
      (getOriginalURL "abc123" true (.error .connErr) (.ok "http://example.com")
          = loadCache (.ok "http://example.com") "abc123" true ∧
        getOriginalURL "abc123" true (.error .connErr) (.ok "http://example.com")
          = getOriginalURL "abc123" true (.error .nil) (.ok "http://example.com")) :=
  ⟨by decide, cache_error_falls_back "abc123" true .connErr (.ok "http://example.com")
    (by decide)⟩

/-- Skipping a prefix of `k` attempts that all draw successfully and
collide: the loop's result is that of the loop started `k` attempts
later, with `k` more attempts on the count. -/
theorem addURLGoLoop_skip (draws : Nat → Except Unit String)
    (outcomes : Nat → InsertOutcome) :
    ∀ (k i r : Nat), k ≤ r →
      (∀ j, j < k → (∃ c, draws (i + j) = .ok c) ∧ outcomes (i + j) = .noRows) →
      (addURLGoLoop draws outcomes i r).result
          = (addURLGoLoop draws outcomes (i + k) (r - k)).result ∧
        (addURLGoLoop draws outcomes i r).attempts
          = (addURLGoLoop draws outcomes (i + k) (r - k)).attempts + k := by
  intro k
  induction k with
  | zero => intro i r _ _; simp
  | succ k ih =>
    intro i r hkr hpre
    obtain ⟨⟨c, hc⟩, hout⟩ := hpre 0 (Nat.succ_pos k)
    rw [Nat.add_zero] at hc hout
    obtain ⟨r', rfl⟩ : ∃ r', r = r' + 1 := ⟨r - 1, by omega⟩
    have step : addURLGoLoop draws outcomes i (r' + 1) =
        ⟨(addURLGoLoop draws outcomes (i + 1) r').result,
          (addURLGoLoop draws outcomes (i + 1) r').attempts + 1,
          c :: (addURLGoLoop draws outcomes (i + 1) r').submitted⟩ := by
      rw [addURLGoLoop, hc, hout]
    have hpre' : ∀ j, j < k →
        (∃ c, draws (i + 1 + j) = .ok c) ∧ outcomes (i + 1 + j) = .noRows := by
      intro j hj
      have e : i + 1 + j = i + (j + 1) := by omega
      rw [e]
      exact hpre (j + 1) (by omega)
    have rec := ih (i + 1) r' (by omega) hpre'
    have e1 : i + 1 + k = i + (k + 1) := by omega
    have e2 : r' - k = r' + 1 - (k + 1) := by omega
    rw [e1, e2] at rec
    obtain ⟨rc, ra⟩ := rec
    rw [step]
    refine ⟨rc, ?_⟩
    show (addURLGoLoop draws outcomes (i + 1) r').attempts + 1 = _
    omega

/-- C4: if every insert attempt reports a collision, `AddURL` performs
exactly `maxRetries` (5) draw-and-insert attempts and then fails with
`ErrFailedToAddURL`, which `ShortenURL` surfaces as
`codes.DeadlineExceeded` (a transient, deadline-like server error), not a
client error. -/
theorem addURL_exhaustion (draws : Nat → Except Unit String)
    (outcomes : Nat → InsertOutcome)
    (h : ∀ i, i < maxRetries → (∃ c, draws i = .ok c) ∧ outcomes i = .noRows) :
    (addURLGo draws outcomes).result = .error .failedToAddURL ∧
      (addURLGo draws outcomes).attempts = maxRetries ∧
      (∀ (parse : String → Option GoURL)
          (shp : String → Option (String × String))
          (pip : String → Option IPProps) (input parsed : String),
        parseURL parse shp pip input = .ok parsed →
        shortenURL parse shp pip input (fun _ => (addURLGo draws outcomes).result) =
          ⟨.error (.deadlineExceeded, "the request has timed out, please try again"),
            some parsed⟩) := by
  have hs := addURLGoLoop_skip draws outcomes maxRetries 0 maxRetries le_rfl
    (by intro j hj; simpa using h j hj)
  have h1 : (addURLGo draws outcomes).result = .error .failedToAddURL := by
    rw [addURLGo, hs.1]
    rfl
  have h2 : (addURLGo draws outcomes).attempts = maxRetries := by
    rw [addURLGo, hs.2]
    rfl
  refine ⟨h1, h2, ?_⟩
  intro parse shp pip input parsed hp
  rw [shortenURL, hp, h1]

/-- Witness for C4: an always-ok draw stream against an always-colliding
store. -/
theorem addURL_exhaustion_witness :
    (∀ i, i < maxRetries →
        (∃ c, (fun _ : Nat => (.ok "aaaaaa" : Except Unit String)) i = .ok c) ∧
          (fun _ : Nat => InsertOutcome.noRows) i = .noRows) ∧
      ((addURLGo (fun _ => .ok "aaaaaa") (fun _ => .noRows)).result
          = .error .failedToAddURL ∧
        (addURLGo (fun _ => .ok "aaaaaa") (fun _ => .noRows)).attempts = maxRetries ∧
        (∀ (parse : String → Option GoURL)
            (shp : String → Option (String × String))
            (pip : String → Option IPProps) (input parsed : String),
          parseURL parse shp pip input = .ok parsed →
          shortenURL parse shp pip input
              (fun _ => (addURLGo (fun _ => .ok "aaaaaa") (fun _ => .noRows)).result) =
            ⟨.error (.deadlineExceeded, "the request has timed out, please try again"),
              some parsed⟩)) :=
  ⟨fun _ _ => ⟨⟨"aaaaaa", rfl⟩, rfl⟩,
    addURL_exhaustion (fun _ => .ok "aaaaaa") (fun _ => .noRows)
      (fun _ _ => ⟨⟨"aaaaaa", rfl⟩, rfl⟩)⟩

/-- C5: within an `AddURL` call, a collision continues the loop with the
next fresh draw, while a random-source failure, a `db.Query` failure or a
non-collision collect failure at attempt `k+1` (after `k` colliding
attempts) aborts the call immediately with exactly `k+1` attempts made. -/
theorem addURL_error_propagation (draws : Nat → Except Unit String)
    (outcomes : Nat → InsertOutcome) (k : Nat) (hk : k < maxRetries)
    (hpre : ∀ j, j < k → (∃ c, draws j = .ok c) ∧ outcomes j = .noRows) :
    ((∀ u, draws k = .error u →
        (addURLGo draws outcomes).result = .error .randErr ∧
          (addURLGo draws outcomes).attempts = k + 1) ∧
      (∀ c, draws k = .ok c → outcomes k = .queryErr →
        (addURLGo draws outcomes).result = .error .queryErr ∧
          (addURLGo draws outcomes).attempts = k + 1) ∧
      (∀ c, draws k = .ok c → outcomes k = .collectErr →
        (addURLGo draws outcomes).result = .error .collectErr ∧
          (addURLGo draws outcomes).attempts = k + 1)) ∧
      (∀ (i r : Nat) (c : String), draws i = .ok c → outcomes i = .noRows →
        addURLGoLoop draws outcomes i (r + 1) =
          ⟨(addURLGoLoop draws outcomes (i + 1) r).result,
            (addURLGoLoop draws outcomes (i + 1) r).attempts + 1,
            c :: (addURLGoLoop draws outcomes (i + 1) r).submitted⟩) := by
  have hs := addURLGoLoop_skip draws outcomes k 0 maxRetries (le_of_lt hk)
    (by intro j hj; simpa using hpre j hj)
  rw [Nat.zero_add] at hs
  obtain ⟨m, hm⟩ : ∃ m, maxRetries - k = m + 1 := ⟨maxRetries - k - 1, by omega⟩
  rw [hm] at hs
  refine ⟨⟨?_, ?_, ?_⟩, ?_⟩
  · intro u hu
    have : addURLGoLoop draws outcomes k (m + 1) = ⟨.error .randErr, 1, []⟩ := by
      rw [addURLGoLoop, hu]
    rw [addURLGo, hs.1, hs.2, this]
    exact ⟨rfl, by show 1 + k = k + 1; omega⟩
  · intro c hc ho
    have : addURLGoLoop draws outcomes k (m + 1) = ⟨.error .queryErr, 1, [c]⟩ := by
      rw [addURLGoLoop, hc, ho]
    rw [addURLGo, hs.1, hs.2, this]
    exact ⟨rfl, by show 1 + k = k + 1; omega⟩
  · intro c hc ho
    have : addURLGoLoop draws outcomes k (m + 1) = ⟨.error .collectErr, 1, [c]⟩ := by
      rw [addURLGoLoop, hc, ho]
    rw [addURLGo, hs.1, hs.2, this]
    exact ⟨rfl, by show 1 + k = k + 1; omega⟩
  · intro i r c hc ho
    rw [addURLGoLoop, hc, ho]

/-- Witness for C5: a first-attempt random-source failure aborts with one
attempt made. -/
theorem addURL_error_propagation_witness :
    (0 < maxRetries ∧
        (∀ j, j < 0 →
          (∃ c, (fun _ : Nat => (.error () : Except Unit String)) j = .ok c) ∧
            (fun _ : Nat => InsertOutcome.noRows) j = .noRows)) ∧
      (∀ u, (fun _ : Nat => (.error () : Except Unit String)) 0 = .error u →
        (addURLGo (fun _ => .error ()) (fun _ => .noRows)).result = .error .randErr ∧
          (addURLGo (fun _ => .error ()) (fun _ => .noRows)).attempts = 0 + 1) :=
  ⟨⟨by decide, fun j hj => absurd hj (Nat.not_lt_zero j)⟩,
    (addURL_error_propagation (fun _ => .error ()) (fun _ => .noRows) 0 (by decide)
      (fun j hj => absurd hj (Nat.not_lt_zero j))).1.1⟩

/-- Characterisation of `parseURL` acceptance: it returns `.ok s` exactly
when the trimmed input is nonempty and within the length bound, parses,
has an `http`/`https` scheme, a path free of `..` and `//`, a non-local
host, and `s` is the parsed URL's serialised form. -/
theorem parseURL_ok_iff (parse : String → Option GoURL)
    (shp : String → Option (String × String)) (pip : String → Option IPProps)
    (input s : String) :
    parseURL parse shp pip input = .ok s ↔
      trimSpace input ≠ "" ∧ (trimSpace input).utf8ByteSize ≤ MaxURLLength ∧
        ∃ u, parse (trimSpace input) = some u ∧
          (u.scheme = "http" ∨ u.scheme = "https") ∧
          (strContains u.path ".." || strContains u.path "//") = false ∧
          isLocalhost shp pip u.host = false ∧ s = u.serialized := by
  by_cases h1 : trimSpace input = ""
  · simp [parseURL, h1]
  · by_cases h2 : MaxURLLength < (trimSpace input).utf8ByteSize
    · have h2' : ¬((trimSpace input).utf8ByteSize ≤ MaxURLLength) := not_le.mpr h2
      simp [parseURL, h1, h2, h2']
    · have h2' : (trimSpace input).utf8ByteSize ≤ MaxURLLength := not_lt.mp h2
      cases hp : parse (trimSpace input) with
      | none => simp [parseURL, h1, h2, hp]
      | some u =>
        by_cases h3 : u.scheme ≠ "http" ∧ u.scheme ≠ "https"
        · simp only [parseURL, if_neg h1, if_neg h2, hp, if_pos h3]
          constructor
          · intro h; cases h
          · rintro ⟨-, -, u', hu', hsch, -⟩
            injection hu' with hu'
            subst hu'
            rcases hsch with h' | h'
            · exact absurd h' h3.1
            · exact absurd h' h3.2
        · by_cases h4 : (strContains u.path ".." || strContains u.path "//") = true
          · simp only [parseURL, if_neg h1, if_neg h2, hp, if_neg h3, if_pos h4]
            constructor
            · intro h; cases h
            · rintro ⟨-, -, u', hu', -, hpath, -⟩
              injection hu' with hu'
              subst hu'
              rw [h4] at hpath
              cases hpath
          · by_cases h5 : isLocalhost shp pip u.host = true
            · simp only [parseURL, if_neg h1, if_neg h2, hp, if_neg h3, if_neg h4,
                if_pos h5]
              constructor
              · intro h; cases h
              · rintro ⟨-, -, u', hu', -, -, hloc, -⟩
                injection hu' with hu'
                subst hu'
                rw [h5] at hloc
                cases hloc
            · simp only [parseURL, if_neg h1, if_neg h2, hp, if_neg h3, if_neg h4,
                if_neg h5]
              constructor
              · intro h
                injection h with h
                refine ⟨h1, h2', u, rfl, ?_, ?_, ?_, h.symm⟩
                · rcases not_and_or.mp h3 with h' | h' <;>
                    [exact Or.inl (not_not.mp h'); exact Or.inr (not_not.mp h')]
                · exact Bool.not_eq_true _ ▸ (Bool.eq_false_iff.mpr h4)
                · exact Bool.eq_false_iff.mpr (fun hh => h5 hh)
              · rintro ⟨-, -, u', hu', -, -, -, hs⟩
                injection hu' with hu'
                subst hu'
                rw [hs]

/-- C10: every input whose trimmed form is empty, longer than 2083 bytes,
parsed with a scheme other than `http`/`https`, carrying `..` or `//` in
its parsed path, or a localhost/loopback/private host, makes `ShortenURL`
fail with `codes.InvalidArgument` and never reach the store's insert; and
every accepted input stores the parsed URL's serialised (normalised) form,
not the raw input. -/
theorem shortenURL_validation (parse : String → Option GoURL)
    (shp : String → Option (String × String)) (pip : String → Option IPProps)
    (input : String)
    (h : trimSpace input = "" ∨ MaxURLLength < (trimSpace input).utf8ByteSize ∨
      (∃ u, parse (trimSpace input) = some u ∧ u.scheme ≠ "http" ∧ u.scheme ≠ "https") ∨
      (∃ u, parse (trimSpace input) = some u ∧
        (strContains u.path ".." || strContains u.path "//") = true) ∨
      (∃ u, parse (trimSpace input) = some u ∧ isLocalhost shp pip u.host = true)) :
    (∃ msg, parseURL parse shp pip input = .error msg ∧
      ∀ addResult, shortenURL parse shp pip input addResult
        = ⟨.error (.invalidArgument, msg), none⟩) ∧
    (∀ input' parsed : String, parseURL parse shp pip input' = .ok parsed →
      ∃ u, parse (trimSpace input') = some u ∧ parsed = u.serialized ∧
        ∀ addResult, (shortenURL parse shp pip input' addResult).addURLArg
          = some u.serialized) := by
  constructor
  · have hno : ∀ s, ¬(parseURL parse shp pip input = .ok s) := by
      intro s hs
      rw [parseURL_ok_iff] at hs
      obtain ⟨hne, hle, u, hu, hscheme, hpath, hlocal, -⟩ := hs
      rcases h with h | h | ⟨u', hu', hs1, hs2⟩ | ⟨u', hu', hp'⟩ | ⟨u', hu', hl'⟩
      · exact hne h
      · omega
      · rw [hu] at hu'
        injection hu' with e
        subst e
        rcases hscheme with h' | h'
        · exact hs1 h'
        · exact hs2 h'
      · rw [hu] at hu'
        injection hu' with e
        subst e
        rw [hpath] at hp'
        cases hp'
      · rw [hu] at hu'
        injection hu' with e
        subst e
        rw [hlocal] at hl'
        cases hl'
    cases hpv : parseURL parse shp pip input with
    | ok s => exact absurd hpv (hno s)
    | error msg =>
      refine ⟨msg, rfl, ?_⟩
      intro addResult
      simp [shortenURL, hpv]
  · intro input' parsed hp0
    have hp := hp0
    rw [parseURL_ok_iff] at hp
    obtain ⟨-, -, u, hu, -, -, -, hs⟩ := hp
    refine ⟨u, hu, hs, ?_⟩
    intro addResult
    cases har : addResult parsed with
    | error e => cases e <;> simp [shortenURL, hp0, har, ← hs]
    | ok u' => simp [shortenURL, hp0, har, ← hs]

/-- Witness for C10: a concrete `ftp`-scheme input is rejected before the
store is reached. -/
theorem shortenURL_validation_witness :
    (∃ u, (fun s => if s = "ftp://x" then
          some (⟨"ftp", "x", "", "ftp://x"⟩ : GoURL) else none) (trimSpace "ftp://x")
        = some u ∧ u.scheme ≠ "http" ∧ u.scheme ≠ "https") ∧
      (∃ msg, parseURL
          (fun s => if s = "ftp://x" then some ⟨"ftp", "x", "", "ftp://x"⟩ else none)
          (fun _ => none) (fun _ => none) "ftp://x" = .error msg ∧
        ∀ addResult, shortenURL
            (fun s => if s = "ftp://x" then some ⟨"ftp", "x", "", "ftp://x"⟩ else none)
            (fun _ => none) (fun _ => none) "ftp://x" addResult
          = ⟨.error (.invalidArgument, msg), none⟩) :=
  ⟨⟨⟨"ftp", "x", "", "ftp://x"⟩, by decide, by decide, by decide⟩,
    (shortenURL_validation
      (fun s => if s = "ftp://x" then some ⟨"ftp", "x", "", "ftp://x"⟩ else none)
      (fun _ => none) (fun _ => none) "ftp://x"
      (Or.inr (Or.inr (Or.inl
        ⟨⟨"ftp", "x", "", "ftp://x"⟩, by decide, by decide, by decide⟩)))).1⟩
